import Mathlib

set_option maxHeartbeats 1000000

namespace ExcelWorkflow

/-- A scalar cell value of a spreadsheet table; `vNull` models a missing value
(pandas `NA`/`NaN`). -/
inductive Value where
  | vNull : Value
  | vStr (s : String) : Value
  | vNum (n : Int) : Value
  | vBool (b : Bool) : Value
deriving DecidableEq

/-- An in-memory tabular structure (a loaded pandas `DataFrame`): an ordered
header of column names and an ordered list of rows. -/
structure SourceTable where
  header : List String
  rows : List (List Value)
deriving DecidableEq

/-- Well-formedness of a loaded table: every row has one cell per header
column (pandas frames are rectangular). -/
def SourceTable.WF (df : SourceTable) : Prop :=
  ∀ r ∈ df.rows, r.length = df.header.length

instance (df : SourceTable) : Decidable df.WF :=
  List.decidableBAll _ df.rows

/-- Cell lookup by column name: the value at the column's first index in the
header, `vNull` when out of range (the merge only uses it for columns present
in the header).  Models a pandas `df[col]` access for a single row. -/
def cellAt (header : List String) (row : List Value) (c : String) : Value :=
  row.getD (header.indexOf c) Value.vNull

/-- One step of the ensure-columns loop of `merge_columns`
(`if col not in df.columns: df[col] = pd.NA`): when `c` is not already a
column, append a null-filled column. -/
def addMissing (df : SourceTable) (c : String) : SourceTable :=
  if c ∈ df.header then df
  else { header := df.header ++ [c],
         rows := df.rows.map (fun r => r ++ [Value.vNull]) }

/-- The ensure-columns loop of `merge_columns`: for each requested column
missing from the table, append a null column. -/
def ensureColumns (df : SourceTable) (columns : List String) : SourceTable :=
  columns.foldl addMissing df

/-- Header after `ensureColumns`, computed at the header level only. -/
def ensureHeader (header : List String) (columns : List String) : List String :=
  columns.foldl (fun h c => if c ∈ h then h else h ++ [c]) header

/-- Row after `ensureColumns`, computed row by row alongside the header. -/
def ensureRow (header : List String) (columns : List String) (r : List Value) :
    List Value :=
  (columns.foldl
    (fun (p : List String × List Value) c =>
      if c ∈ p.1 then p else (p.1 ++ [c], p.2 ++ [Value.vNull]))
    (header, r)).2

/-- Column projection `df[columns]`: the result's header is `columns` and each
row lists, in `columns` order, the cell at each requested name. -/
def selectColumns (df : SourceTable) (columns : List String) : SourceTable :=
  { header := columns,
    rows := df.rows.map (fun r => columns.map (cellAt df.header r)) }

/-- Column assignment with a constant value (`df[c] = v`): overwrite every
existing column named `c` in place, or append a new column when absent. -/
def setColumn (df : SourceTable) (c : String) (v : Value) : SourceTable :=
  if c ∈ df.header then
    { header := df.header,
      rows := df.rows.map
        (fun r => (df.header.zip r).map (fun p => if p.1 = c then v else p.2)) }
  else
    { header := df.header ++ [c], rows := df.rows.map (fun r => r ++ [v]) }

/-- The per-source body of the `merge_columns` loop: ensure all requested
columns exist, project to them, then assign the provenance column
(`df_selected["SourceFile"] = fname`). -/
def projectTable (columns : List String) (fname : String) (df : SourceTable) :
    SourceTable :=
  setColumn (selectColumns (ensureColumns df columns) columns) "SourceFile"
    (Value.vStr fname)

/-- The row-level effect of `projectTable` on one source row. -/
def projRow (header : List String) (columns : List String) (fname : String)
    (r : List Value) : List Value :=
  if "SourceFile" ∈ columns then
    (columns.zip
        (columns.map (cellAt (ensureHeader header columns) (ensureRow header columns r)))).map
      (fun p => if p.1 = "SourceFile" then Value.vStr fname else p.2)
  else
    columns.map (cellAt (ensureHeader header columns) (ensureRow header columns r))
      ++ [Value.vStr fname]

/-- The external world of the merge engine: the known files
(`list_excel_files`) and the sheet loader.  `none` models both a load failure
and the absence of the requested sheet, which `merge_columns` treats
identically (its `try`/`except` and its `sheet_names` check both `continue`). -/
structure Env where
  knownFiles : List String
  loadSheet : String → String → Option SourceTable

/-- Candidate files of a merge: the explicit list when given, else all known
files (`files if files is not None else list_excel_files()`). -/
def availableFiles (env : Env) (files : Option (List String)) : List String :=
  files.getD env.knownFiles

/-- The failure of `merge_columns`: the raised ValueError's text names the
requested sheet and the candidate file list. -/
inductive MergeError where
  | noData (sheet : String) (files : List String) : MergeError
deriving DecidableEq

deriving instance DecidableEq for Except

/-- Concatenation of the per-source projections (`pd.concat(all_dfs)`): every
projection carries the same header; rows follow in list order. -/
def concatTables (dfs : List SourceTable) : SourceTable :=
  { header := ((dfs.head?).map SourceTable.header).getD [],
    rows := dfs.flatMap SourceTable.rows }

/-- The output filename written by `merge_columns`. -/
def outputName (sheet_name : String) : String :=
  "merged_" ++ (sheet_name.replace " " "_") ++ ".xlsx"

/-- `merge_columns` of `excel_service.py`: walk the candidate files in order,
silently skipping any that fail to load or lack the sheet; project each loaded
table to the requested columns plus the provenance column; fail when no source
contributed; otherwise concatenate all projections. -/
def merge_columns (env : Env) (sheet_name : String) (columns : List String)
    (files : Option (List String)) : Except MergeError SourceTable :=
  let available := availableFiles env files
  let all_dfs := available.filterMap
    (fun fname => (env.loadSheet fname sheet_name).map (projectTable columns fname))
  if all_dfs.isEmpty then
    Except.error (MergeError.noData sheet_name available)
  else
    Except.ok (concatTables all_dfs)

/-- The rows a single candidate file contributes to the merge: none when the
sheet is absent or unloadable, else its rows projected in original order. -/
def sourceRows (env : Env) (sheet : String) (columns : List String) (f : String) :
    List (List Value) :=
  match env.loadSheet f sheet with
  | none => []
  | some df => df.rows.map (projRow df.header columns f)

/-- The node type tags of a workflow request (the Literal in main.py). -/
inductive NodeType where
  | select_files : NodeType
  | select_sheet : NodeType
  | select_columns : NodeType
  | merge_columns : NodeType
deriving DecidableEq

/-- A workflow node (pydantic model WorkflowNode): a type tag plus the
optional payload fields, all defaulting to absent. -/
structure WorkflowNode where
  id : String
  type : NodeType
  files : Option (List String) := none
  sheet_name : Option String := none
  columns : Option (List String) := none
deriving DecidableEq

/-- The executor's accumulated pipeline state: the three local variables
`current_files`, `current_sheet`, `current_columns` of run_workflow. -/
structure PipelineState where
  current_files : Option (List String)
  current_sheet : Option String
  current_columns : List String
deriving DecidableEq

/-- The state at the start of a run: no files, no sheet, empty columns. -/
def initState : PipelineState := ⟨none, none, []⟩

/-- Python truthiness of an optional list (`if not node.files`): falsy when
absent or empty. -/
def optListFalsy (o : Option (List String)) : Bool :=
  match o with
  | none => true
  | some l => l.isEmpty

/-- Python truthiness of an optional string (`if not current_sheet`): falsy
when absent or empty. -/
def optStrFalsy (o : Option String) : Bool :=
  match o with
  | none => true
  | some s => s.isEmpty

/-- The failures run_workflow surfaces as HTTP 400 responses, one constructor
per distinct detail message. -/
inductive RunError where
  | missingFiles (nodeId : String) : RunError
  | unknownFiles (nodeId : String) (missing : List String) : RunError
  | missingSheetName (nodeId : String) : RunError
  | missingColumns (nodeId : String) : RunError
  | noSheetSelected : RunError
  | noColumnsSelected : RunError
  | noData (sheet : String) (files : List String) : RunError
  | noMergeExecuted : RunError
deriving DecidableEq

/-- The success response of run_workflow, carrying the merged table the merge
produced alongside the response fields. -/
structure RunResult where
  output_filename : String
  merged : SourceTable
  sheet_name : String
  columns : List String
  files : List String
deriving DecidableEq

/-- The resolved `files` field of the success response:
`current_files or list_excel_files()` (Python `or`, so an empty list would
also fall back). -/
def orElseFiles (cur : Option (List String)) (known : List String) : List String :=
  match cur with
  | none => known
  | some fs => if fs.isEmpty then known else fs

/-- The node loop of run_workflow in main.py: process nodes in order,
overwriting state fields, returning from the first merge node, and failing
with the no-merge error when the list is exhausted. -/
def runNodes (env : Env) (nodes : List WorkflowNode) (st : PipelineState) :
    Except RunError RunResult :=
  match nodes with
  | [] => Except.error RunError.noMergeExecuted
  | node :: rest =>
    match node.type with
    | NodeType.select_files =>
      if optListFalsy node.files then Except.error (RunError.missingFiles node.id)
      else
        let fs := node.files.getD []
        let missing := fs.filter (fun f => !(env.knownFiles.contains f))
        if missing.isEmpty then
          runNodes env rest { st with current_files := some fs }
        else Except.error (RunError.unknownFiles node.id missing)
    | NodeType.select_sheet =>
      if optStrFalsy node.sheet_name then
        Except.error (RunError.missingSheetName node.id)
      else runNodes env rest { st with current_sheet := node.sheet_name }
    | NodeType.select_columns =>
      if optListFalsy node.columns then
        Except.error (RunError.missingColumns node.id)
      else runNodes env rest { st with current_columns := node.columns.getD [] }
    | NodeType.merge_columns =>
      if optStrFalsy st.current_sheet then Except.error RunError.noSheetSelected
      else if st.current_columns.isEmpty then Except.error RunError.noColumnsSelected
      else
        match merge_columns env (st.current_sheet.getD "") st.current_columns
            st.current_files with
        | Except.error (MergeError.noData s fs) => Except.error (RunError.noData s fs)
        | Except.ok t =>
          Except.ok
            { output_filename := outputName (st.current_sheet.getD ""),
              merged := t,
              sheet_name := st.current_sheet.getD "",
              columns := st.current_columns,
              files := orElseFiles st.current_files env.knownFiles }

/-- run_workflow of main.py: process the request's nodes from an empty state. -/
def run_workflow (env : Env) (nodes : List WorkflowNode) :
    Except RunError RunResult :=
  runNodes env nodes initState

/-- The validity check a non-merge node passes to avoid an immediate error,
exactly as run_workflow performs it. -/
def nodeOK (env : Env) (n : WorkflowNode) : Bool :=
  match n.type with
  | NodeType.select_files =>
    !(optListFalsy n.files) &&
      ((n.files.getD []).filter (fun f => !(env.knownFiles.contains f))).isEmpty
  | NodeType.select_sheet => !(optStrFalsy n.sheet_name)
  | NodeType.select_columns => !(optListFalsy n.columns)
  | NodeType.merge_columns => true

/-- Two pipeline states that agree on every field except the one a node of
type `t` overwrites. -/
def agreeExcept (t : NodeType) (s1 s2 : PipelineState) : Prop :=
  match t with
  | NodeType.select_files =>
    s1.current_sheet = s2.current_sheet ∧ s1.current_columns = s2.current_columns
  | NodeType.select_sheet =>
    s1.current_files = s2.current_files ∧ s1.current_columns = s2.current_columns
  | NodeType.select_columns =>
    s1.current_files = s2.current_files ∧ s1.current_sheet = s2.current_sheet
  | NodeType.merge_columns => s1 = s2

/-- Fixture: the spec's concrete scenario, table A with columns Region and
Amount and two rows. -/
def tblA : SourceTable :=
  ⟨["Region", "Amount"], [[Value.vStr "N", Value.vNum 1], [Value.vStr "S", Value.vNum 2]]⟩

/-- Fixture: table B with only a Region column and one row. -/
def tblB : SourceTable := ⟨["Region"], [[Value.vStr "E"]]⟩

/-- Fixture environment: two known files, both containing sheet Sales. -/
def env2 : Env :=
  { knownFiles := ["a.xlsx", "b.xlsx"],
    loadSheet := fun f s =>
      if s = "Sales" then
        if f = "a.xlsx" then some tblA
        else if f = "b.xlsx" then some tblB
        else none
      else none }

/-- Fixture node: select the Sales sheet. -/
def nodeSheetSales : WorkflowNode :=
  { id := "n1", type := NodeType.select_sheet, sheet_name := some "Sales" }

/-- Fixture node: select the Region column. -/
def nodeColsRegion : WorkflowNode :=
  { id := "n2", type := NodeType.select_columns, columns := some ["Region"] }

/-- Fixture node: select the Region and Amount columns. -/
def nodeColsRA : WorkflowNode :=
  { id := "n2b", type := NodeType.select_columns, columns := some ["Region", "Amount"] }

/-- Fixture node: restrict the run to file a.xlsx. -/
def nodeFilesA : WorkflowNode :=
  { id := "n0", type := NodeType.select_files, files := some ["a.xlsx"] }

/-- Fixture node: the terminal merge node. -/
def nodeMerge : WorkflowNode := { id := "n3", type := NodeType.merge_columns }

/-- Fixture node: a select_files node naming an unknown file; it errors if it
is ever evaluated, so it can sit after a merge node as a sentinel. -/
def nodeFilesBad : WorkflowNode :=
  { id := "n4", type := NodeType.select_files, files := some ["nope.xlsx"] }

/-- Fixture node: a select_files node with an absent payload. -/
def nodeFilesNone : WorkflowNode := { id := "n5", type := NodeType.select_files }

/-- Fixture node: a select_files node with an explicitly empty payload. -/
def nodeFilesEmpty : WorkflowNode :=
  { id := "n6", type := NodeType.select_files, files := some [] }

/-- Fixture state: a sheet selected but no columns. -/
def stSheetOnly : PipelineState := ⟨none, some "Sales", []⟩

/-- Fixture state: sheet and columns selected, no file restriction. -/
def stReady : PipelineState := ⟨none, some "Sales", ["Region"]⟩

theorem ensureColumns_eq (columns : List String) (df : SourceTable) :
    ensureColumns df columns =
      ⟨ensureHeader df.header columns, df.rows.map (ensureRow df.header columns)⟩ := by
  induction columns generalizing df with
  | nil =>
    have h0 : ensureRow df.header [] = fun r => r := by
      funext r; rfl
    simp [ensureColumns, ensureHeader, h0]
  | cons c cs ih =>
    by_cases hc : c ∈ df.header
    · have h1 : ensureColumns df (c :: cs) = ensureColumns df cs := by
        simp [ensureColumns, addMissing, hc]
      have h2 : ensureHeader df.header (c :: cs) = ensureHeader df.header cs := by
        simp [ensureHeader, hc]
      have h3 : ensureRow df.header (c :: cs) = ensureRow df.header cs := by
        funext r
        simp [ensureRow, hc]
      rw [h1, ih df, h2, h3]
    · have h1 : ensureColumns df (c :: cs) =
          ensureColumns ⟨df.header ++ [c], df.rows.map (fun r => r ++ [Value.vNull])⟩ cs := by
        simp [ensureColumns, addMissing, hc]
      have h2 : ensureHeader df.header (c :: cs) = ensureHeader (df.header ++ [c]) cs := by
        simp [ensureHeader, hc]
      have h3 : ∀ r, ensureRow df.header (c :: cs) r =
          ensureRow (df.header ++ [c]) cs (r ++ [Value.vNull]) := by
        intro r
        simp [ensureRow, hc]
      rw [h1, ih]
      simp only [List.map_map]
      rw [h2]
      have h4 : ensureRow (df.header ++ [c]) cs ∘ (fun r => r ++ [Value.vNull]) =
          ensureRow df.header (c :: cs) := by
        funext r
        simp [Function.comp, h3 r]
      rw [h4]

theorem projectTable_header (columns : List String) (fname : String) (df : SourceTable) :
    (projectTable columns fname df).header =
      if "SourceFile" ∈ columns then columns else columns ++ ["SourceFile"] := by
  unfold projectTable setColumn selectColumns
  by_cases h : "SourceFile" ∈ columns <;> simp [h]

theorem projectTable_rows (columns : List String) (fname : String) (df : SourceTable) :
    (projectTable columns fname df).rows = df.rows.map (projRow df.header columns fname) := by
  unfold projectTable setColumn selectColumns
  rw [ensureColumns_eq]
  by_cases h : "SourceFile" ∈ columns <;>
    simp [h, List.map_map, Function.comp, projRow]

theorem filterMap_flatMap {α β γ : Type} (l : List α) (g : α → Option β) (h : β → List γ) :
    (l.filterMap g).flatMap h =
      l.flatMap (fun a => match g a with | none => [] | some b => h b) := by
  induction l with
  | nil => rfl
  | cons x xs ih =>
    cases hx : g x <;> simp [List.filterMap_cons, hx, ih]

theorem merge_columns_ok_inv {env : Env} {sheet : String} {columns : List String}
    {files : Option (List String)} {t : SourceTable}
    (hok : merge_columns env sheet columns files = Except.ok t) :
    (availableFiles env files).filterMap
        (fun fname => (env.loadSheet fname sheet).map (projectTable columns fname)) ≠ [] ∧
      t = concatTables ((availableFiles env files).filterMap
        (fun fname => (env.loadSheet fname sheet).map (projectTable columns fname))) := by
  unfold merge_columns at hok
  simp only [List.isEmpty_iff] at hok
  split at hok
  · exact absurd hok (by simp)
  · exact ⟨by assumption, by injection hok with h; exact h.symm⟩

theorem merge_rows {env : Env} {sheet : String} {columns : List String}
    {files : Option (List String)} {t : SourceTable}
    (hok : merge_columns env sheet columns files = Except.ok t) :
    t.rows = (availableFiles env files).flatMap (sourceRows env sheet columns) := by
  obtain ⟨-, ht⟩ := merge_columns_ok_inv hok
  rw [ht]
  show ((availableFiles env files).filterMap _).flatMap SourceTable.rows = _
  rw [filterMap_flatMap]
  congr 1
  funext f
  cases hf : env.loadSheet f sheet <;>
    simp [sourceRows, hf, projectTable_rows]

theorem merge_header {env : Env} {sheet : String} {columns : List String}
    {files : Option (List String)} {t : SourceTable}
    (hok : merge_columns env sheet columns files = Except.ok t) :
    t.header = if "SourceFile" ∈ columns then columns else columns ++ ["SourceFile"] := by
  obtain ⟨hne, ht⟩ := merge_columns_ok_inv hok
  rw [ht]
  revert hne
  cases hdfs : (availableFiles env files).filterMap
      (fun fname => (env.loadSheet fname sheet).map (projectTable columns fname)) with
  | nil => intro hne; exact absurd rfl hne
  | cons d ds =>
    intro _
    have hd : d ∈ (availableFiles env files).filterMap
        (fun fname => (env.loadSheet fname sheet).map (projectTable columns fname)) := by
      rw [hdfs]; exact List.mem_cons_self d ds
    obtain ⟨f, -, hgf⟩ := List.mem_filterMap.mp hd
    obtain ⟨df, -, hdf⟩ := Option.map_eq_some'.mp hgf
    have : d.header = if "SourceFile" ∈ columns then columns else columns ++ ["SourceFile"] := by
      rw [← hdf, projectTable_header]
    simpa [concatTables] using this

theorem ensureHeader_cons_mem {c : String} {header : List String} (cs : List String)
    (hc : c ∈ header) : ensureHeader header (c :: cs) = ensureHeader header cs := by
  simp [ensureHeader, hc]

theorem ensureHeader_cons_not_mem {c : String} {header : List String} (cs : List String)
    (hc : c ∉ header) : ensureHeader header (c :: cs) = ensureHeader (header ++ [c]) cs := by
  simp [ensureHeader, hc]

theorem ensureRow_cons_mem {c : String} {header : List String} (cs : List String)
    (r : List Value) (hc : c ∈ header) :
    ensureRow header (c :: cs) r = ensureRow header cs r := by
  simp [ensureRow, hc]

theorem ensureRow_cons_not_mem {c : String} {header : List String} (cs : List String)
    (r : List Value) (hc : c ∉ header) :
    ensureRow header (c :: cs) r = ensureRow (header ++ [c]) cs (r ++ [Value.vNull]) := by
  simp [ensureRow, hc]

theorem cellAt_append_extend (header : List String) (r : List Value) (c c' : String)
    (hc : c ∈ header) (hlen : r.length = header.length) :
    cellAt (header ++ [c']) (r ++ [Value.vNull]) c = cellAt header r c := by
  unfold cellAt
  rw [List.indexOf_append_of_mem hc]
  have hidx : header.indexOf c < header.length := List.indexOf_lt_length.mpr hc
  rw [List.getD_append _ _ _ _ (by omega)]

theorem cellAt_ensure_preserved (columns : List String) :
    ∀ (header : List String) (r : List Value) (c : String), c ∈ header →
      r.length = header.length →
      cellAt (ensureHeader header columns) (ensureRow header columns r) c =
        cellAt header r c := by
  induction columns with
  | nil => intro header r c _ _; rfl
  | cons c' cs ih =>
    intro header r c hc hlen
    by_cases hc' : c' ∈ header
    · rw [ensureHeader_cons_mem cs hc', ensureRow_cons_mem cs r hc']
      exact ih header r c hc hlen
    · rw [ensureHeader_cons_not_mem cs hc', ensureRow_cons_not_mem cs r hc']
      rw [ih (header ++ [c']) (r ++ [Value.vNull]) c (List.mem_append_left _ hc)
        (by simp [hlen])]
      exact cellAt_append_extend header r c c' hc hlen

theorem cellAt_append_new (header : List String) (r : List Value) (c : String)
    (hc : c ∉ header) (hlen : r.length = header.length) :
    cellAt (header ++ [c]) (r ++ [Value.vNull]) c = Value.vNull := by
  unfold cellAt
  rw [List.indexOf_append_of_not_mem hc, List.indexOf_cons_self]
  rw [List.getD_append_right _ _ _ _ (by omega)]
  simp [hlen]

theorem cellAt_ensure_missing (columns : List String) :
    ∀ (header : List String) (r : List Value) (c : String), c ∈ columns →
      c ∉ header → r.length = header.length →
      cellAt (ensureHeader header columns) (ensureRow header columns r) c =
        Value.vNull := by
  induction columns with
  | nil => intro header r c hcol _ _; cases hcol
  | cons c' cs ih =>
    intro header r c hcol hmiss hlen
    by_cases hc' : c' ∈ header
    · rw [ensureHeader_cons_mem cs hc', ensureRow_cons_mem cs r hc']
      have hcs : c ∈ cs := by
        rcases List.mem_cons.mp hcol with h | h
        · exact absurd (h ▸ hc') hmiss
        · exact h
      exact ih header r c hcs hmiss hlen
    · rw [ensureHeader_cons_not_mem cs hc', ensureRow_cons_not_mem cs r hc']
      by_cases hce : c = c'
      · subst hce
        rw [cellAt_ensure_preserved cs (header ++ [c]) (r ++ [Value.vNull]) c
          (by simp) (by simp [hlen])]
        exact cellAt_append_new header r c hmiss hlen
      · have hcs : c ∈ cs := by
          rcases List.mem_cons.mp hcol with h | h
          · exact absurd h hce
          · exact h
        exact ih (header ++ [c']) (r ++ [Value.vNull]) c hcs
          (by simp [hmiss, hce]) (by simp [hlen])

theorem projRow_cellAt_ne (header columns : List String) (f : String) (r : List Value)
    (c : String) (hc : c ∈ columns) (hne : c ≠ "SourceFile") :
    cellAt (if "SourceFile" ∈ columns then columns else columns ++ ["SourceFile"])
      (projRow header columns f r) c =
    cellAt (ensureHeader header columns) (ensureRow header columns r) c := by
  have hidx : columns.indexOf c < columns.length := List.indexOf_lt_length.mpr hc
  unfold projRow cellAt
  by_cases hm : "SourceFile" ∈ columns
  · simp only [if_pos hm]
    rw [List.getD_eq_getElem _ _ (by simpa using hidx)]
    simp only [List.getElem_map, List.getElem_zip]
    rw [List.getElem_indexOf hidx]
    simp [hne]
  · simp only [if_neg hm]
    rw [List.indexOf_append_of_mem hc]
    rw [List.getD_append _ _ _ _ (by simpa using hidx)]
    rw [List.getD_eq_getElem _ _ (by simpa using hidx)]
    simp only [List.getElem_map]
    rw [List.getElem_indexOf hidx]

theorem projRow_cellAt_SF (header columns : List String) (f : String) (r : List Value)
    (hm : "SourceFile" ∈ columns) :
    cellAt columns (projRow header columns f r) "SourceFile" = Value.vStr f := by
  have hidx : columns.indexOf "SourceFile" < columns.length :=
    List.indexOf_lt_length.mpr hm
  unfold projRow cellAt
  simp only [if_pos hm]
  rw [List.getD_eq_getElem _ _ (by simpa using hidx)]
  simp only [List.getElem_map, List.getElem_zip]
  rw [List.getElem_indexOf hidx]
  simp

/-- C1 (counterexample): with the requested column list already containing
"SourceFile", the merged table's column order is not the requested order
followed by an appended provenance column — the provenance assignment
overwrites the existing column in place, so no column is appended. -/
theorem C1_counterexample :
    merge_columns env2 "Sales" ["SourceFile"] none =
      Except.ok ⟨["SourceFile"],
        [[Value.vStr "a.xlsx"], [Value.vStr "a.xlsx"], [Value.vStr "b.xlsx"]]⟩ ∧
      (⟨["SourceFile"],
        [[Value.vStr "a.xlsx"], [Value.vStr "a.xlsx"], [Value.vStr "b.xlsx"]]⟩ :
          SourceTable).header ≠ ["SourceFile"] ++ ["SourceFile"] := by
  exact ⟨by decide, by decide⟩

/-- C1 (amended): for every non-empty column list C that does not itself
contain "SourceFile", and every environment and candidate file list, a
successful merge_columns result has column order exactly C followed by the
final provenance column "SourceFile", regardless of the original column order
of any source table. -/
theorem C1_column_order (env : Env) (sheet : String) (columns : List String)
    (files : Option (List String)) (t : SourceTable) (hne : columns ≠ [])
    (hsf : "SourceFile" ∉ columns)
    (hok : merge_columns env sheet columns files = Except.ok t) :
    t.header = columns ++ ["SourceFile"] := by
  rw [merge_header hok, if_neg hsf]

/-- Witness for C1: the amended theorem applied to the fixture environment. -/
theorem C1_column_order_witness :
    (⟨["Region", "SourceFile"],
      [[Value.vStr "N", Value.vStr "a.xlsx"], [Value.vStr "S", Value.vStr "a.xlsx"],
       [Value.vStr "E", Value.vStr "b.xlsx"]]⟩ : SourceTable).header =
      ["Region"] ++ ["SourceFile"] :=
  C1_column_order env2 "Sales" ["Region"] none _ (by decide) (by decide) (by decide)

/-- C2: a successful merge's row sequence is the concatenation, in candidate
order, of the projected rows of exactly the sources whose sheet loaded, each
source's rows in original order; the row count is the sum of those sources'
row counts, absent sources contributing zero. -/
theorem C2_row_concat (env : Env) (sheet : String) (columns : List String)
    (files : Option (List String)) (t : SourceTable)
    (hok : merge_columns env sheet columns files = Except.ok t) :
    t.rows = (availableFiles env files).flatMap (sourceRows env sheet columns) ∧
      t.rows.length = ((availableFiles env files).map (fun f =>
        match env.loadSheet f sheet with
        | none => 0
        | some df => df.rows.length)).sum := by
  refine ⟨merge_rows hok, ?_⟩
  rw [merge_rows hok, List.length_flatMap]
  refine congrArg List.sum (List.map_congr_left ?_)
  intro f _
  cases hf : env.loadSheet f sheet <;> simp [sourceRows, hf]

/-- Witness for C2: the concrete scenario, two contributing sources with two
rows and one row. -/
theorem C2_row_concat_witness :
    (⟨["Region", "Amount", "SourceFile"],
      [[Value.vStr "N", Value.vNum 1, Value.vStr "a.xlsx"],
       [Value.vStr "S", Value.vNum 2, Value.vStr "a.xlsx"],
       [Value.vStr "E", Value.vNull, Value.vStr "b.xlsx"]]⟩ : SourceTable).rows =
      (availableFiles env2 none).flatMap (sourceRows env2 "Sales" ["Region", "Amount"]) ∧
      (⟨["Region", "Amount", "SourceFile"],
        [[Value.vStr "N", Value.vNum 1, Value.vStr "a.xlsx"],
         [Value.vStr "S", Value.vNum 2, Value.vStr "a.xlsx"],
         [Value.vStr "E", Value.vNull, Value.vStr "b.xlsx"]]⟩ : SourceTable).rows.length =
        ((availableFiles env2 none).map (fun f =>
          match env2.loadSheet f "Sales" with
          | none => 0
          | some df => df.rows.length)).sum :=
  C2_row_concat env2 "Sales" ["Region", "Amount"] none _ (by decide)

/-- C3 (counterexample): table B lacks the requested column "SourceFile", yet
its output cell in that column is the origin identifier, not null. -/
theorem C3_counterexample :
    merge_columns env2 "Sales" ["Amount", "SourceFile"] none =
      Except.ok ⟨["Amount", "SourceFile"],
        [[Value.vNum 1, Value.vStr "a.xlsx"], [Value.vNum 2, Value.vStr "a.xlsx"],
         [Value.vNull, Value.vStr "b.xlsx"]]⟩ ∧
      cellAt ["Amount", "SourceFile"] [Value.vNull, Value.vStr "b.xlsx"] "SourceFile" ≠
        Value.vNull := by
  exact ⟨by decide, by decide⟩

/-- C3 (amended): a source that has the sheet but lacks a requested column
other than "SourceFile" is still included — each of its rows appears,
projected, in the output — and its output cells in that missing column are
null. -/
theorem C3_missing_null (env : Env) (sheet : String) (columns : List String)
    (files : Option (List String)) (t : SourceTable) (f : String)
    (df : SourceTable) (c : String)
    (hok : merge_columns env sheet columns files = Except.ok t)
    (hf : f ∈ availableFiles env files) (hdf : env.loadSheet f sheet = some df)
    (hwf : df.WF) (hc : c ∈ columns) (hmiss : c ∉ df.header)
    (hsf : c ≠ "SourceFile") :
    (∀ r ∈ df.rows, projRow df.header columns f r ∈ t.rows) ∧
      (∀ r ∈ df.rows,
        cellAt t.header (projRow df.header columns f r) c = Value.vNull) := by
  constructor
  · intro r hr
    rw [merge_rows hok]
    refine List.mem_flatMap.mpr ⟨f, hf, ?_⟩
    simp only [sourceRows, hdf]
    exact List.mem_map_of_mem _ hr
  · intro r hr
    rw [merge_header hok, projRow_cellAt_ne df.header columns f r c hc hsf]
    exact cellAt_ensure_missing columns df.header r c hc hmiss (hwf r hr)

/-- Witness for C3: table B lacks Amount; its row appears projected and its
Amount cell is null. -/
theorem C3_missing_null_witness :
    (∀ r ∈ tblB.rows,
      projRow tblB.header ["Region", "Amount"] "b.xlsx" r ∈
        (⟨["Region", "Amount", "SourceFile"],
          [[Value.vStr "N", Value.vNum 1, Value.vStr "a.xlsx"],
           [Value.vStr "S", Value.vNum 2, Value.vStr "a.xlsx"],
           [Value.vStr "E", Value.vNull, Value.vStr "b.xlsx"]]⟩ : SourceTable).rows) ∧
      (∀ r ∈ tblB.rows,
        cellAt (⟨["Region", "Amount", "SourceFile"],
          [[Value.vStr "N", Value.vNum 1, Value.vStr "a.xlsx"],
           [Value.vStr "S", Value.vNum 2, Value.vStr "a.xlsx"],
           [Value.vStr "E", Value.vNull, Value.vStr "b.xlsx"]]⟩ : SourceTable).header
          (projRow tblB.header ["Region", "Amount"] "b.xlsx" r) "Amount" =
          Value.vNull) :=
  C3_missing_null env2 "Sales" ["Region", "Amount"] none _ "b.xlsx" tblB "Amount"
    (by decide) (by decide) (by decide) (by decide) (by decide) (by decide) (by decide)

/-- C4: merge_columns fails exactly when no candidate source loaded the sheet,
and the only failure is the no-data error naming the requested sheet and the
full candidate file list; a single source's failure alone never produces an
error. -/
theorem C4_error_iff (env : Env) (sheet : String) (columns : List String)
    (files : Option (List String)) (e : MergeError) :
    merge_columns env sheet columns files = Except.error e ↔
      ((∀ f ∈ availableFiles env files, env.loadSheet f sheet = none) ∧
        e = MergeError.noData sheet (availableFiles env files)) := by
  unfold merge_columns
  simp only [List.isEmpty_iff]
  constructor
  · intro h
    split at h
    · next hemp =>
      injection h with h
      refine ⟨?_, h.symm⟩
      intro f hf
      exact Option.map_eq_none'.mp (List.filterMap_eq_nil_iff.mp hemp f hf)
    · exact absurd h (by simp)
  · rintro ⟨hall, rfl⟩
    rw [if_pos]
    exact List.filterMap_eq_nil_iff.mpr (fun f hf => by rw [hall f hf]; rfl)

/-- Witness for C4: a sheet absent from every source yields the no-data error
naming the sheet and the full candidate list. -/
theorem C4_error_iff_witness :
    merge_columns env2 "Nope" ["A"] none =
      Except.error (MergeError.noData "Nope" ["a.xlsx", "b.xlsx"]) :=
  (C4_error_iff env2 "Nope" ["A"] none
    (MergeError.noData "Nope" ["a.xlsx", "b.xlsx"])).mpr ⟨by decide, by decide⟩

/-- C10: when the unique requested columns already contain "SourceFile", the
merged output has exactly the requested columns (the provenance column appears
once, not duplicated), and in every projected row the provenance assignment
overwrites the "SourceFile" cell with the origin file identifier. -/
theorem C10_sourcefile_overwrite (env : Env) (sheet : String)
    (columns : List String) (files : Option (List String)) (t : SourceTable)
    (hnodup : columns.Nodup) (hmem : "SourceFile" ∈ columns)
    (hok : merge_columns env sheet columns files = Except.ok t) :
    t.header = columns ∧ t.header.count "SourceFile" = 1 ∧
      t.rows = (availableFiles env files).flatMap (sourceRows env sheet columns) ∧
      (∀ f ∈ availableFiles env files, ∀ df, env.loadSheet f sheet = some df →
        ∀ r ∈ df.rows,
          cellAt t.header (projRow df.header columns f r) "SourceFile" =
            Value.vStr f) := by
  have hh : t.header = columns := by rw [merge_header hok, if_pos hmem]
  refine ⟨hh, ?_, merge_rows hok, ?_⟩
  · rw [hh]
    exact List.count_eq_one_of_mem hnodup hmem
  · intro f _ df _ r _
    rw [hh]
    exact projRow_cellAt_SF df.header columns f r hmem

/-- Witness for C10: requested columns Region and SourceFile; the provenance
column appears once and holds the origin identifiers. -/
theorem C10_sourcefile_overwrite_witness :
    (⟨["Region", "SourceFile"],
      [[Value.vStr "N", Value.vStr "a.xlsx"], [Value.vStr "S", Value.vStr "a.xlsx"],
       [Value.vStr "E", Value.vStr "b.xlsx"]]⟩ : SourceTable).header =
        ["Region", "SourceFile"] ∧
      (⟨["Region", "SourceFile"],
        [[Value.vStr "N", Value.vStr "a.xlsx"], [Value.vStr "S", Value.vStr "a.xlsx"],
         [Value.vStr "E", Value.vStr "b.xlsx"]]⟩ : SourceTable).header.count
        "SourceFile" = 1 ∧
      (⟨["Region", "SourceFile"],
        [[Value.vStr "N", Value.vStr "a.xlsx"], [Value.vStr "S", Value.vStr "a.xlsx"],
         [Value.vStr "E", Value.vStr "b.xlsx"]]⟩ : SourceTable).rows =
        (availableFiles env2 none).flatMap
          (sourceRows env2 "Sales" ["Region", "SourceFile"]) ∧
      (∀ f ∈ availableFiles env2 none, ∀ df, env2.loadSheet f "Sales" = some df →
        ∀ r ∈ df.rows,
          cellAt (⟨["Region", "SourceFile"],
            [[Value.vStr "N", Value.vStr "a.xlsx"], [Value.vStr "S", Value.vStr "a.xlsx"],
             [Value.vStr "E", Value.vStr "b.xlsx"]]⟩ : SourceTable).header
            (projRow df.header ["Region", "SourceFile"] f r) "SourceFile" =
            Value.vStr f) :=
  C10_sourcefile_overwrite env2 "Sales" ["Region", "SourceFile"] none _
    (by decide) (by decide) (by decide)

theorem runNodes_merge_head (env : Env) (m : WorkflowNode)
    (hm : m.type = NodeType.merge_columns) (post post' : List WorkflowNode)
    (st : PipelineState) :
    runNodes env (m :: post) st = runNodes env (m :: post') st := by
  simp only [runNodes, hm]

theorem runNodes_append_congr (env : Env) (A B : List WorkflowNode)
    (h : ∀ s, runNodes env A s = runNodes env B s) :
    ∀ (pre : List WorkflowNode) (st : PipelineState),
      runNodes env (pre ++ A) st = runNodes env (pre ++ B) st := by
  intro pre
  induction pre with
  | nil => intro st; exact h st
  | cons n pre ih =>
    intro st
    simp only [List.cons_append, runNodes]
    cases hn : n.type
    · simp only []
      split
      · rfl
      · split
        · exact ih _
        · rfl
    · simp only []
      split
      · rfl
      · exact ih _
    · simp only []
      split
      · rfl
      · exact ih _
    · rfl

theorem runNodes_merge_step (env : Env) (m : WorkflowNode)
    (hm : m.type = NodeType.merge_columns) (post : List WorkflowNode)
    (st : PipelineState) (s : String) (hs : st.current_sheet = some s)
    (hsne : s ≠ "") (hcols : st.current_columns ≠ []) :
    runNodes env (m :: post) st =
      match merge_columns env s st.current_columns st.current_files with
      | Except.error (MergeError.noData sh fs) => Except.error (RunError.noData sh fs)
      | Except.ok t =>
        Except.ok
          { output_filename := outputName s, merged := t, sheet_name := s,
            columns := st.current_columns,
            files := orElseFiles st.current_files env.knownFiles } := by
  have h1 : optStrFalsy (some s) = false := by
    show s.isEmpty = false
    rw [Bool.eq_false_iff]
    intro hemp
    exact hsne ((String.isEmpty_iff s).mp hemp)
  have h2 : st.current_columns.isEmpty = false := by
    simpa [List.isEmpty_iff] using hcols
  simp only [runNodes, hm, hs, h1, h2, Bool.false_eq_true, if_false, Option.getD_some]

theorem agreeExcept_update_files (t : NodeType) (s1 s2 : PipelineState)
    (h : agreeExcept t s1 s2) (fs : Option (List String)) :
    agreeExcept t { s1 with current_files := fs } { s2 with current_files := fs } := by
  cases t <;> simp only [agreeExcept] at h ⊢ <;> simp_all

theorem agreeExcept_update_sheet (t : NodeType) (s1 s2 : PipelineState)
    (h : agreeExcept t s1 s2) (sh : Option String) :
    agreeExcept t { s1 with current_sheet := sh } { s2 with current_sheet := sh } := by
  cases t <;> simp only [agreeExcept] at h ⊢ <;> simp_all

theorem agreeExcept_update_columns (t : NodeType) (s1 s2 : PipelineState)
    (h : agreeExcept t s1 s2) (cs : List String) :
    agreeExcept t { s1 with current_columns := cs } { s2 with current_columns := cs } := by
  cases t <;> simp only [agreeExcept] at h ⊢ <;> simp_all

theorem runNodes_agree (env : Env) (t : NodeType)
    (ht : t ≠ NodeType.merge_columns) (n2 : WorkflowNode) (hn2 : n2.type = t) :
    ∀ (mid : List WorkflowNode),
      (∀ n ∈ mid, n.type ≠ NodeType.merge_columns ∧ n.type ≠ t) →
      ∀ (rest : List WorkflowNode) (s1 s2 : PipelineState), agreeExcept t s1 s2 →
        runNodes env (mid ++ n2 :: rest) s1 = runNodes env (mid ++ n2 :: rest) s2 := by
  intro mid
  induction mid with
  | nil =>
    intro _ rest s1 s2 hag
    obtain ⟨f1, sh1, c1⟩ := s1
    obtain ⟨f2, sh2, c2⟩ := s2
    cases t with
    | merge_columns => exact absurd rfl ht
    | select_files =>
      obtain ⟨h1, h2⟩ := hag
      simp only at h1 h2
      subst h1
      subst h2
      simp only [List.nil_append, runNodes, hn2]
    | select_sheet =>
      obtain ⟨h1, h2⟩ := hag
      simp only at h1 h2
      subst h1
      subst h2
      simp only [List.nil_append, runNodes, hn2]
    | select_columns =>
      obtain ⟨h1, h2⟩ := hag
      simp only at h1 h2
      subst h1
      subst h2
      simp only [List.nil_append, runNodes, hn2]
  | cons n mid ih =>
    intro hmid rest s1 s2 hag
    obtain ⟨hnm, hnt⟩ := hmid n (List.mem_cons_self n mid)
    have hmid' : ∀ x ∈ mid, x.type ≠ NodeType.merge_columns ∧ x.type ≠ t :=
      fun x hx => hmid x (List.mem_cons_of_mem n hx)
    cases hn : n.type with
    | merge_columns => exact absurd hn hnm
    | select_files =>
      simp only [List.cons_append, runNodes, hn]
      split
      · rfl
      · split
        · exact ih hmid' rest _ _ (agreeExcept_update_files t s1 s2 hag _)
        · rfl
    | select_sheet =>
      simp only [List.cons_append, runNodes, hn]
      split
      · rfl
      · exact ih hmid' rest _ _ (agreeExcept_update_sheet t s1 s2 hag _)
    | select_columns =>
      simp only [List.cons_append, runNodes, hn]
      split
      · rfl
      · exact ih hmid' rest _ _ (agreeExcept_update_columns t s1 s2 hag _)

theorem runNodes_step_files (env : Env) (n : WorkflowNode) (rest : List WorkflowNode)
    (st : PipelineState) (hn : n.type = NodeType.select_files)
    (hok : nodeOK env n = true) :
    runNodes env (n :: rest) st =
      runNodes env rest { st with current_files := some (n.files.getD []) } := by
  simp only [nodeOK, hn, Bool.and_eq_true, Bool.not_eq_true'] at hok
  obtain ⟨ha, hb⟩ := hok
  simp only [runNodes, hn, ha, hb, Bool.false_eq_true, eq_self_iff_true, if_true, if_false]

theorem runNodes_step_sheet (env : Env) (n : WorkflowNode) (rest : List WorkflowNode)
    (st : PipelineState) (hn : n.type = NodeType.select_sheet)
    (hok : nodeOK env n = true) :
    runNodes env (n :: rest) st =
      runNodes env rest { st with current_sheet := n.sheet_name } := by
  simp only [nodeOK, hn, Bool.not_eq_true'] at hok
  simp only [runNodes, hn, hok, Bool.false_eq_true, if_false]

theorem runNodes_step_columns (env : Env) (n : WorkflowNode) (rest : List WorkflowNode)
    (st : PipelineState) (hn : n.type = NodeType.select_columns)
    (hok : nodeOK env n = true) :
    runNodes env (n :: rest) st =
      runNodes env rest { st with current_columns := n.columns.getD [] } := by
  simp only [nodeOK, hn, Bool.not_eq_true'] at hok
  simp only [runNodes, hn, hok, Bool.false_eq_true, if_false]

theorem runNodes_no_merge (env : Env) :
    ∀ (nodes : List WorkflowNode) (st : PipelineState),
      (∀ n ∈ nodes, n.type ≠ NodeType.merge_columns) →
      (∀ n ∈ nodes, nodeOK env n = true) →
      runNodes env nodes st = Except.error RunError.noMergeExecuted := by
  intro nodes
  induction nodes with
  | nil => intro st _ _; rfl
  | cons n rest ih =>
    intro st hno hok
    have hn := hno n (List.mem_cons_self n rest)
    have hkn := hok n (List.mem_cons_self n rest)
    have hno' : ∀ x ∈ rest, x.type ≠ NodeType.merge_columns :=
      fun x hx => hno x (List.mem_cons_of_mem n hx)
    have hok' : ∀ x ∈ rest, nodeOK env x = true :=
      fun x hx => hok x (List.mem_cons_of_mem n hx)
    cases hnt : n.type with
    | merge_columns => exact absurd hnt hn
    | select_files =>
      rw [runNodes_step_files env n rest st hnt hkn]
      exact ih _ hno' hok'
    | select_sheet =>
      rw [runNodes_step_sheet env n rest st hnt hkn]
      exact ih _ hno' hok'
    | select_columns =>
      rw [runNodes_step_columns env n rest st hnt hkn]
      exact ih _ hno' hok'

/-- C5: the executor returns from the first merge node it reaches: the nodes
after it never affect the result; at that node it invokes the merger with the
accumulated sheet, columns and file set and returns the merger's outcome
immediately, and an unset file selection resolves to all known files. -/
theorem C5_first_merge_returns (env : Env) (pre post post' : List WorkflowNode)
    (m : WorkflowNode) (st : PipelineState)
    (hpre : ∀ n ∈ pre, n.type ≠ NodeType.merge_columns)
    (hm : m.type = NodeType.merge_columns) :
    runNodes env (pre ++ m :: post) st = runNodes env (pre ++ m :: post') st ∧
      availableFiles env none = env.knownFiles ∧
      (∀ s, st.current_sheet = some s → s ≠ "" → st.current_columns ≠ [] →
        runNodes env (m :: post) st =
          match merge_columns env s st.current_columns st.current_files with
          | Except.error (MergeError.noData sh fs) => Except.error (RunError.noData sh fs)
          | Except.ok t =>
            Except.ok
              { output_filename := outputName s, merged := t, sheet_name := s,
                columns := st.current_columns,
                files := orElseFiles st.current_files env.knownFiles }) :=
  ⟨runNodes_append_congr env (m :: post) (m :: post')
      (fun s => runNodes_merge_head env m hm post post' s) pre st,
    rfl,
    fun s hs hsne hcols => runNodes_merge_step env m hm post st s hs hsne hcols⟩

/-- Witness for C5: a sentinel node that would error sits after the merge node
and does not change the outcome; at the merge node the merger's outcome is
returned. -/
theorem C5_first_merge_returns_witness :
    runNodes env2 ([nodeSheetSales, nodeColsRegion] ++ nodeMerge :: [nodeFilesBad])
        initState =
      runNodes env2 ([nodeSheetSales, nodeColsRegion] ++ nodeMerge :: []) initState ∧
      runNodes env2 (nodeMerge :: [nodeFilesBad]) stReady =
        match merge_columns env2 "Sales" stReady.current_columns
            stReady.current_files with
        | Except.error (MergeError.noData sh fs) => Except.error (RunError.noData sh fs)
        | Except.ok t =>
          Except.ok
            { output_filename := outputName "Sales", merged := t, sheet_name := "Sales",
              columns := stReady.current_columns,
              files := orElseFiles stReady.current_files env2.knownFiles } :=
  ⟨(C5_first_merge_returns env2 [nodeSheetSales, nodeColsRegion] [nodeFilesBad] []
      nodeMerge initState (by decide) (by decide)).1,
    (C5_first_merge_returns env2 [] [nodeFilesBad] [] nodeMerge stReady (by decide)
      (by decide)).2.2 "Sales" rfl (by decide) (by decide)⟩

/-- C6: a merge node reached with no sheet set fails with the no-sheet
precondition error, and one reached with a sheet but an empty column list
fails with the no-columns precondition error; no merge is invoked. -/
theorem C6_merge_preconditions (env : Env) (m : WorkflowNode)
    (rest : List WorkflowNode) (st : PipelineState)
    (hm : m.type = NodeType.merge_columns) :
    (st.current_sheet = none →
      runNodes env (m :: rest) st = Except.error RunError.noSheetSelected) ∧
      (∀ s, st.current_sheet = some s → s ≠ "" → st.current_columns = [] →
        runNodes env (m :: rest) st = Except.error RunError.noColumnsSelected) := by
  constructor
  · intro hs
    simp [runNodes, hm, hs, optStrFalsy]
  · intro s hs hsne hcols
    have h1 : optStrFalsy (some s) = false := by
      show s.isEmpty = false
      rw [Bool.eq_false_iff]
      intro hemp
      exact hsne ((String.isEmpty_iff s).mp hemp)
    simp [runNodes, hm, hs, h1, hcols]

/-- Witness for C6: both precondition failures on the fixture states. -/
theorem C6_merge_preconditions_witness :
    runNodes env2 [nodeMerge] initState = Except.error RunError.noSheetSelected ∧
      runNodes env2 [nodeMerge] stSheetOnly =
        Except.error RunError.noColumnsSelected :=
  ⟨(C6_merge_preconditions env2 nodeMerge [] initState (by decide)).1 rfl,
    (C6_merge_preconditions env2 nodeMerge [] stSheetOnly (by decide)).2 "Sales" rfl
      (by decide) rfl⟩

/-- C7: a select_files node with an absent or explicitly empty payload fails
with the missing-field error; one naming unknown files fails with the
unknown-files error listing exactly the identifiers outside the known
universe, in payload order; a valid one overwrites the state's file set with
the given list. -/
theorem C7_select_files_validation (env : Env) (n : WorkflowNode)
    (rest : List WorkflowNode) (st : PipelineState)
    (hn : n.type = NodeType.select_files) :
    (n.files = none →
      runNodes env (n :: rest) st = Except.error (RunError.missingFiles n.id)) ∧
      (n.files = some [] →
        runNodes env (n :: rest) st = Except.error (RunError.missingFiles n.id)) ∧
      (∀ fs, n.files = some fs → fs ≠ [] →
        fs.filter (fun f => !(env.knownFiles.contains f)) ≠ [] →
        runNodes env (n :: rest) st =
          Except.error (RunError.unknownFiles n.id
            (fs.filter (fun f => !(env.knownFiles.contains f))))) ∧
      (∀ fs, n.files = some fs → fs ≠ [] → (∀ f ∈ fs, f ∈ env.knownFiles) →
        runNodes env (n :: rest) st =
          runNodes env rest { st with current_files := some fs }) := by
  refine ⟨?_, ?_, ?_, ?_⟩
  · intro hf
    simp [runNodes, hn, hf, optListFalsy]
  · intro hf
    simp [runNodes, hn, hf, optListFalsy]
  · intro fs hf hne hmiss
    have h1 : optListFalsy (some fs) = false := by
      simpa [optListFalsy, List.isEmpty_iff] using hne
    have h2 : (fs.filter (fun f => !(env.knownFiles.contains f))).isEmpty = false := by
      simpa [List.isEmpty_iff] using hmiss
    simp only [runNodes, hn, hf, h1, h2, Option.getD_some, Bool.false_eq_true, if_false]
  · intro fs hf hne hknown
    have h1 : optListFalsy (some fs) = false := by
      simpa [optListFalsy, List.isEmpty_iff] using hne
    have h2 : fs.filter (fun f => !(env.knownFiles.contains f)) = [] := by
      rw [List.filter_eq_nil_iff]
      intro a ha
      simpa using hknown a ha
    simp only [runNodes, hn, hf, h1, h2, Option.getD_some, Bool.false_eq_true, if_false,
      List.isEmpty_nil, eq_self_iff_true, if_true]

/-- Witness for C7: all four behaviors on fixture nodes. -/
theorem C7_select_files_validation_witness :
    runNodes env2 [nodeFilesNone] initState =
      Except.error (RunError.missingFiles "n5") ∧
      runNodes env2 [nodeFilesEmpty] initState =
        Except.error (RunError.missingFiles "n6") ∧
      runNodes env2 [nodeFilesBad] initState =
        Except.error (RunError.unknownFiles "n4"
          (["nope.xlsx"].filter (fun f => !(env2.knownFiles.contains f)))) ∧
      runNodes env2 [nodeFilesA] initState =
        runNodes env2 [] { initState with current_files := some ["a.xlsx"] } :=
  ⟨(C7_select_files_validation env2 nodeFilesNone [] initState rfl).1 rfl,
    (C7_select_files_validation env2 nodeFilesEmpty [] initState rfl).2.1 rfl,
    (C7_select_files_validation env2 nodeFilesBad [] initState rfl).2.2.1
      ["nope.xlsx"] rfl (by decide) (by decide),
    (C7_select_files_validation env2 nodeFilesA [] initState rfl).2.2.2
      ["a.xlsx"] rfl (by decide) (by decide)⟩

/-- C8: a run whose node sequence contains no merge node fails with the
no-merge-executed error after processing all nodes, even when every node in
it passes its own validation. -/
theorem C8_no_merge_error (env : Env) (nodes : List WorkflowNode)
    (hno : ∀ n ∈ nodes, n.type ≠ NodeType.merge_columns)
    (hok : ∀ n ∈ nodes, nodeOK env n = true) :
    run_workflow env nodes = Except.error RunError.noMergeExecuted :=
  runNodes_no_merge env nodes initState hno hok

/-- Witness for C8: three valid selection nodes and no merge node. -/
theorem C8_no_merge_error_witness :
    run_workflow env2 [nodeFilesA, nodeSheetSales, nodeColsRegion] =
      Except.error RunError.noMergeExecuted :=
  C8_no_merge_error env2 [nodeFilesA, nodeSheetSales, nodeColsRegion]
    (by decide) (by decide)

/-- C9: repeated selection nodes overwrite rather than accumulate: dropping an
earlier valid selection node leaves the run's outcome unchanged whenever a
later node of the same type occurs before any merge node — last write wins,
for select_columns, select_sheet and select_files alike. -/
theorem C9_last_write_wins (env : Env) (pre mid post : List WorkflowNode)
    (n1 n2 : WorkflowNode) (st : PipelineState) (ht : n1.type = n2.type)
    (hnm : n1.type ≠ NodeType.merge_columns) (h1 : nodeOK env n1 = true)
    (hmid : ∀ n ∈ mid, n.type ≠ NodeType.merge_columns ∧ n.type ≠ n1.type) :
    runNodes env (pre ++ n1 :: (mid ++ n2 :: post)) st =
      runNodes env (pre ++ (mid ++ n2 :: post)) st := by
  apply runNodes_append_congr
  intro s
  cases hnt : n1.type with
  | merge_columns => exact absurd hnt hnm
  | select_files =>
    rw [runNodes_step_files env n1 _ s hnt h1]
    exact runNodes_agree env NodeType.select_files (by decide) n2 (ht.symm.trans hnt)
      mid (fun n hn => ⟨(hmid n hn).1, hnt ▸ (hmid n hn).2⟩) post _ s ⟨rfl, rfl⟩
  | select_sheet =>
    rw [runNodes_step_sheet env n1 _ s hnt h1]
    exact runNodes_agree env NodeType.select_sheet (by decide) n2 (ht.symm.trans hnt)
      mid (fun n hn => ⟨(hmid n hn).1, hnt ▸ (hmid n hn).2⟩) post _ s ⟨rfl, rfl⟩
  | select_columns =>
    rw [runNodes_step_columns env n1 _ s hnt h1]
    exact runNodes_agree env NodeType.select_columns (by decide) n2 (ht.symm.trans hnt)
      mid (fun n hn => ⟨(hmid n hn).1, hnt ▸ (hmid n hn).2⟩) post _ s ⟨rfl, rfl⟩

/-- Witness for C9: a run with two select_columns nodes separated by a
select_sheet node equals the same run without the first of them. -/
theorem C9_last_write_wins_witness :
    runNodes env2 ([] ++ nodeColsRA :: ([nodeSheetSales] ++ nodeColsRegion ::
        [nodeMerge])) initState =
      runNodes env2 ([] ++ ([nodeSheetSales] ++ nodeColsRegion :: [nodeMerge]))
        initState :=
  C9_last_write_wins env2 [] [nodeSheetSales] [nodeMerge] nodeColsRA nodeColsRegion
    initState (by decide) (by decide) (by decide) (by decide)

end ExcelWorkflow
